import Mathlib

/-!
Verification of the PyCEFRizer CEFR-J level estimator.

This file gives a shallow embedding of the core of the PyCEFRizer
repository (the metric-to-level pipeline in `cefr_mapping.py`, the
AvrFreqRank extractor and error wiring in `metrics.py`, and the
orchestration in `pycefrizer.py`) and proves the behavioural properties
stated in the specification.

Conventions of the embedding:
- Python floats are modelled as exact rationals (`ℚ`); decimal constants
  from the source are written as exact fractions.
- Python dictionaries that are only iterated or looked up are modelled as
  association lists in insertion order; `dict.get` becomes `lookupAssoc`.
- Raised exceptions become `Except String` error values carrying the
  message built by the source.
- Python text is modelled as `String` (a list of characters); `str.split`,
  `str.strip` and `str.lower` are re-implemented on the character list,
  matching the Python semantics on the basic latin range.
-/

/-- `Config.MIN_WORDS` from `config.py`. -/
def MIN_WORDS : ℕ := 10

/-- `Config.MAX_WORDS` from `config.py`. -/
def MAX_WORDS : ℕ := 10000

/-- `Config.MAX_CEFR_SCORE` from `config.py`. -/
def MAX_CEFR_SCORE : ℚ := 7

/-- `Config.EXCLUDE_INFREQUENT_COUNT` from `config.py`. -/
def EXCLUDE_INFREQUENT_COUNT : ℕ := 3

/-- `Config.DEFAULT_FREQUENCY_RANK` from `config.py`. -/
def DEFAULT_FREQUENCY_RANK : ℕ := 10000

/-- `Config.REGRESSION_COEFFICIENTS` from `config.py`: metric name to
(slope, intercept), in source order.  The decimal constants are written as
exact fractions: 1.1059 = 11059/10000, -1.208 = -1208/1000, and so on. -/
def REGRESSION_COEFFICIENTS : List (String × ℚ × ℚ) :=
  [("CVV1", (11059 / 10000, -1208 / 1000)),
   ("BperA", (13146 / 1000, 428 / 1000)),
   ("POStypes", (1768 / 1000, -12006 / 1000)),
   ("ARI", (607 / 1000, -1632 / 1000)),
   ("AvrDiff", (6417 / 1000, -7184 / 1000)),
   ("AvrFreqRank", (4 / 1000, -608 / 1000)),
   ("VperSent", (2203 / 1000, -2486 / 1000)),
   ("LenNP", (2629 / 1000, -6697 / 1000))]

/-- `Config.CEFR_J_BOUNDARIES` from `config.py`, in source order.  A
threshold of `none` models the final unbounded boundary written as
`float('inf')` in the source; `some q` models the finite float `q`. -/
def CEFR_J_BOUNDARIES : List (Option ℚ × String) :=
  [(some (5 / 10), "preA1"),
   (some (84 / 100), "A1.1"),
   (some (117 / 100), "A1.2"),
   (some (15 / 10), "A1.3"),
   (some 2, "A2.1"),
   (some (25 / 10), "A2.2"),
   (some 3, "B1.1"),
   (some (35 / 10), "B1.2"),
   (some 4, "B2.1"),
   (some (45 / 10), "B2.2"),
   (some (55 / 10), "C1"),
   (none, "C2")]

/-- Association-list lookup keyed by strings; models lookup in a Python
dict that was built in insertion order. -/
def lookupAssoc {α : Type} (key : String) : List (String × α) → Option α
  | [] => none
  | (k, v) :: rest => if key = k then some v else lookupAssoc key rest

/-- `CEFRMapper.apply_regression` from `cefr_mapping.py`: look up the
(slope, intercept) pair for the metric, apply the affine transform and cap
the result at `MAX_CEFR_SCORE`; unknown metric names raise `ValueError`,
modelled as an error value. -/
def apply_regression (metric_value : ℚ) (metric_name : String) : Except String ℚ :=
  match lookupAssoc metric_name REGRESSION_COEFFICIENTS with
  | none => Except.error ("Unknown metric: " ++ metric_name)
  | some (slope, intercept) =>
      Except.ok (min (metric_value * slope + intercept) MAX_CEFR_SCORE)

/-- Round a rational to the nearest integer, ties to the even integer;
models the rounding used by the Python built-in `round` on an exact
decimal value. -/
def roundHalfEven (q : ℚ) : ℤ :=
  if q - ⌊q⌋ < 1 / 2 then ⌊q⌋
  else if 1 / 2 < q - ⌊q⌋ then ⌊q⌋ + 1
  else if ⌊q⌋ % 2 = 0 then ⌊q⌋ else ⌊q⌋ + 1

/-- `round(x, 2)` from the source, on the exact-rational model of floats. -/
def round2 (q : ℚ) : ℚ := (roundHalfEven (q * 100) : ℤ) / 100

/-- `CEFRMapper.calculate_cefr_scores` from `cefr_mapping.py`: apply the
regression to every metric in order, store the result rounded to two
decimal places under the key `<name>_CEFR`, and propagate the first
`ValueError` (re-raised by the source) as an error value. -/
def calculate_cefr_scores : List (String × ℚ) → Except String (List (String × ℚ))
  | [] => Except.ok []
  | (name, value) :: rest =>
      match apply_regression value name with
      | Except.error e => Except.error e
      | Except.ok s =>
          match calculate_cefr_scores rest with
          | Except.error e => Except.error e
          | Except.ok tail => Except.ok ((name ++ "_CEFR", round2 s) :: tail)

/-- The local variable `scores = list(cefr_scores.values())` of
`calculate_final_level`. -/
def finalLevelScores (cefr_scores : List (String × ℚ)) : List ℚ :=
  cefr_scores.map Prod.snd

/-- The local variable `middle_scores = scores[1:-1]` of
`calculate_final_level`, taken after the ascending sort. -/
def finalLevelMiddle (cefr_scores : List (String × ℚ)) : List ℚ :=
  (((finalLevelScores cefr_scores).insertionSort (· ≤ ·)).drop 1).dropLast

/-- `CEFRMapper.calculate_final_level` from `cefr_mapping.py`: with two or
fewer scores, their plain mean (0 when empty); otherwise sort ascending,
slice off the first and last element (`scores[1:-1]`) and average the
middle values. -/
def calculate_final_level (cefr_scores : List (String × ℚ)) : ℚ :=
  if (finalLevelScores cefr_scores).length ≤ 2 then
    if (finalLevelScores cefr_scores).isEmpty then 0
    else (finalLevelScores cefr_scores).sum / (finalLevelScores cefr_scores).length
  else
    if (finalLevelMiddle cefr_scores).isEmpty then 0
    else (finalLevelMiddle cefr_scores).sum / (finalLevelMiddle cefr_scores).length

/-- The comparison `score < boundary` from `map_to_cefr_j`, where the
boundary may be the unbounded `float('inf')` entry (`none`), which every
finite float is below. -/
def ltBoundary (s : ℚ) : Option ℚ → Prop
  | none => True
  | some c => s < c

instance ltBoundaryDecidable (s : ℚ) : (b : Option ℚ) → Decidable (ltBoundary s b)
  | none => isTrue trivial
  | some c => inferInstanceAs (Decidable (s < c))

/-- The boundary scan inside `CEFRMapper.map_to_cefr_j`: return the label
of the first boundary whose threshold strictly exceeds the score, with the
source fallback value `"C2"` after the loop. -/
def lookupBoundary (s : ℚ) : List (Option ℚ × String) → String
  | [] => "C2"
  | (b, label) :: rest => if ltBoundary s b then label else lookupBoundary s rest

/-- `CEFRMapper.map_to_cefr_j` from `cefr_mapping.py`. -/
def map_to_cefr_j (score : ℚ) : String := lookupBoundary score CEFR_J_BOUNDARIES

/-- The twelve CEFR-J labels in boundary-table order. -/
def cefrJLabels : List String := CEFR_J_BOUNDARIES.map Prod.snd

/-- Ordinal position of a CEFR-J label in the boundary table; used to state
monotonicity of the score-to-label mapping. -/
def cefrJRank (label : String) : ℕ := cefrJLabels.indexOf label

/-- Models Python `str(score)` for a float that carries an exact value with
at most two decimal places, as produced by `round(score, 2)`: the shortest
decimal representation, with at least one fractional digit. -/
def formatScore (q : ℚ) : String :=
  (if q < 0 then "-" else "") ++ toString ((⌊|q| * 100⌋).natAbs / 100) ++ "." ++
    (if (⌊|q| * 100⌋).natAbs % 100 = 0 then "0"
     else if (⌊|q| * 100⌋).natAbs % 100 % 10 = 0 then
       toString ((⌊|q| * 100⌋).natAbs % 100 / 10)
     else if (⌊|q| * 100⌋).natAbs % 100 < 10 then
       "0" ++ toString ((⌊|q| * 100⌋).natAbs % 100)
     else toString ((⌊|q| * 100⌋).natAbs % 100))

/-- `CEFRMapper.process_metrics` from `cefr_mapping.py`: compute the
rounded CEFR score map, aggregate it to the final score and CEFR-J label,
and format the same rounded scores as strings for the public result. -/
def process_metrics (metrics : List (String × ℚ)) :
    Except String (String × List (String × String)) :=
  match calculate_cefr_scores metrics with
  | Except.error e => Except.error e
  | Except.ok cefr_scores =>
      let final_score := calculate_final_level cefr_scores
      Except.ok (map_to_cefr_j final_score,
        cefr_scores.map (fun p => (p.1, formatScore p.2)))

/-- The whitespace characters recognised by Python `str.split()` and
`str.strip()` (space, tab, newline, carriage return, vertical tab, form
feed). -/
def isWS (c : Char) : Bool :=
  c = ' ' || c = '\t' || c = '\n' || c = '\r' || c = '\x0b' || c = '\x0c'

/-- Python `str.strip()` on a character list: drop leading and trailing
whitespace. -/
def pyStrip (s : List Char) : List Char :=
  ((s.dropWhile isWS).reverse.dropWhile isWS).reverse

/-- Worker for `pyWords`: scan the characters, accumulating the current
word in reverse; whitespace runs separate words and produce no empties. -/
def pySplitAux : List Char → List Char → List (List Char)
  | [], acc => if acc.isEmpty then [] else [acc.reverse]
  | c :: rest, acc =>
      if isWS c then
        if acc.isEmpty then pySplitAux rest [] else acc.reverse :: pySplitAux rest []
      else pySplitAux rest (c :: acc)

/-- Python `text.split()` (no separator argument): the maximal
whitespace-free words of the text, in order. -/
def pyWords (s : List Char) : List (List Char) := pySplitAux s []

/-- Python `text.strip()` on `String`. -/
def pyStripStr (s : String) : String := String.mk (pyStrip s.toList)

/-- Python `str.lower()`, modelled on the basic latin range via
`Char.toLower` (the lexical resources and CEFR labels are plain ASCII). -/
def lowerStr (s : String) : String := String.mk (s.toList.map Char.toLower)

/-- The membership test `' ' in s` from the source (for a single-character
needle, Python substring containment is character membership). -/
def containsSpace (s : String) : Bool := decide (' ' ∈ s.toList)

/-- A spaCy token as consumed by the core: surface text, lemma, coarse
part-of-speech tag, and the punctuation/space/stopword flags.  Field names
follow the spaCy attribute names used by the source. -/
structure SpacyToken where
  text : String
  lemma_ : String
  pos_ : String
  is_punct : Bool
  is_space : Bool
  is_stop : Bool

/-- An entry of the word-lookup resource (`word_lookup.json`): base form,
part of speech and CEFR level. -/
structure WordEntry where
  base_form : String
  pos : String
  CEFR : String

/-- `ResourceManager.get_word_frequency_rank` from `resources.py`:
lowercase the word and look it up in the COCA table, with
`DEFAULT_FREQUENCY_RANK` for absent words. -/
def get_word_frequency_rank (coca : List (String × ℕ)) (word : String) : ℕ :=
  match lookupAssoc (lowerStr word) coca with
  | some rank => rank
  | none => DEFAULT_FREQUENCY_RANK

/-- `ResourceManager.get_word_level` from `resources.py`: lowercase the
word and return the CEFR field of its entry when present. -/
def get_word_level (store : List (String × WordEntry)) (word : String) : Option String :=
  match lookupAssoc (lowerStr word) store with
  | some entry => some entry.CEFR
  | none => none

/-- The local `ranks` list of `MetricsCalculator.calculate_avrfreqrank`
from `metrics.py`: the frequency ranks of all non-punctuation, non-space
tokens, looked up on the lowercased surface form. -/
def avrfreqrankRanks (coca : List (String × ℕ)) (doc : List SpacyToken) : List ℕ :=
  (doc.filter (fun t => !t.is_punct && !t.is_space)).map
    (fun t => get_word_frequency_rank coca (lowerStr t.text))

/-- The trimmed rank list of `calculate_avrfreqrank`: the source sorts the
ranks ascending and slices `ranks[:-3]`, keeping all but the 3 highest. -/
def avrfreqrankTrimmed (coca : List (String × ℕ)) (doc : List SpacyToken) : List ℕ :=
  ((avrfreqrankRanks coca doc).insertionSort (· ≤ ·)).take
    (((avrfreqrankRanks coca doc).insertionSort (· ≤ ·)).length - EXCLUDE_INFREQUENT_COUNT)

/-- `MetricsCalculator.calculate_avrfreqrank` from `metrics.py`: with more
than `EXCLUDE_INFREQUENT_COUNT` ranks, sort ascending and drop the highest
`EXCLUDE_INFREQUENT_COUNT` of them (`ranks[:-3]`), then average; with 3 or
fewer ranks average them all; 0 for an empty list. -/
def calculate_avrfreqrank (coca : List (String × ℕ)) (doc : List SpacyToken) : ℚ :=
  if (avrfreqrankRanks coca doc).length ≤ EXCLUDE_INFREQUENT_COUNT then
    if (avrfreqrankRanks coca doc).isEmpty then 0
    else ((avrfreqrankRanks coca doc).sum : ℚ) / (avrfreqrankRanks coca doc).length
  else
    if (avrfreqrankTrimmed coca doc).isEmpty then 0
    else ((avrfreqrankTrimmed coca doc).sum : ℚ) / (avrfreqrankTrimmed coca doc).length

/-- `MetricsCalculator.calculate_ari` from `metrics.py`.  The external
`textstat.automated_readability_index` call is passed in as its outcome:
`Except.ok v` for a returned float, `Except.error e` for a raised
exception.  The source catches every exception locally and returns 0.0. -/
def calculate_ari (ariResult : Except String ℚ) : ℚ :=
  match ariResult with
  | Except.ok v => v
  | Except.error _ => 0

/-- The exception wrapping shared by the extractor bodies and the loop of
`calculate_all_metrics`: an unexpected internal error in the extractor for
`name` surfaces as `MetricCalculationError` with the message
`Failed to calculate <name>: <e>`. -/
def wrapMetric (name : String) (result : Except String ℚ) : Except String ℚ :=
  match result with
  | Except.error e => Except.error ("Failed to calculate " ++ name ++ ": " ++ e)
  | Except.ok v => Except.ok v

/-- `MetricsCalculator.calculate_all_metrics` from `metrics.py`, with each
extractor represented by the outcome of its internal computation (a value,
or the unexpected internal exception it would raise).  The metrics are
assembled in source order; every extractor except ARI propagates its
failure wrapped with the metric name, while the ARI slot goes through
`calculate_ari`, which degrades failures to 0. -/
def calculate_all_metrics (avrDiff bperA cvv1 avrFreqRank : Except String ℚ)
    (ariResult : Except String ℚ) (vperSent posTypes lenNP : Except String ℚ) :
    Except String (List (String × ℚ)) := do
  let vAvrDiff ← wrapMetric "AvrDiff" avrDiff
  let vBperA ← wrapMetric "BperA" bperA
  let vCvv1 ← wrapMetric "CVV1" cvv1
  let vAvrFreqRank ← wrapMetric "AvrFreqRank" avrFreqRank
  let vAri := calculate_ari ariResult
  let vVperSent ← wrapMetric "VperSent" vperSent
  let vPosTypes ← wrapMetric "POStypes" posTypes
  let vLenNP ← wrapMetric "LenNP" lenNP
  return [("AvrDiff", vAvrDiff), ("BperA", vBperA), ("CVV1", vCvv1),
    ("AvrFreqRank", vAvrFreqRank), ("ARI", vAri), ("VperSent", vVperSent),
    ("POStypes", vPosTypes), ("LenNP", vLenNP)]

/-- `PyCEFRizer.validate_input` from `pycefrizer.py`: empty or
whitespace-only text is rejected immediately; then the whitespace-split
word count must lie within `[MIN_WORDS, MAX_WORDS]`, with descriptive
`TextLengthError` messages naming the violated bound and the count. -/
def validate_input (text : String) : Except String ℕ :=
  if text = "" ∨ pyStripStr text = "" then
    Except.error "Input text cannot be empty"
  else if (pyWords text.toList).length < MIN_WORDS then
    Except.error ("Text is too short. Minimum " ++ toString MIN_WORDS ++
      " words required, but got " ++ toString (pyWords text.toList).length ++ " words.")
  else if (pyWords text.toList).length > MAX_WORDS then
    Except.error ("Text is too long. Maximum " ++ toString MAX_WORDS ++
      " words allowed, but got " ++ toString (pyWords text.toList).length ++ " words.")
  else Except.ok (pyWords text.toList).length

/-- `PyCEFRizer.get_word_cefr_level` from `pycefrizer.py`: strip and
lowercase the word; words that are empty or still contain a space give the
empty string, otherwise the store level is returned, with the empty string
for absent words. -/
def get_word_cefr_level (store : List (String × WordEntry)) (word : String) : String :=
  if containsSpace (lowerStr (pyStripStr word)) = true ∨ lowerStr (pyStripStr word) = "" then
    ""
  else
    match get_word_level store (lowerStr (pyStripStr word)) with
    | some level => level
    | none => ""

/-- `PyCEFRizer.analyze` from `pycefrizer.py`.  The spaCy pass, the eight
extractors and `process_metrics` are bundled into the `pipeline` argument
(the dependency of the full-text branch only); the single-word branch
bypasses validation and the pipeline entirely and returns the single-key
record built from the lexical lookup. -/
def analyze (store : List (String × WordEntry))
    (pipeline : String → Except String (String × List (String × String)))
    (text : String) : Except String (List (String × String)) :=
  if containsSpace (pyStripStr text) = false ∧ pyStripStr text ≠ "" then
    Except.ok [("CEFR_Level", get_word_cefr_level store (pyStripStr text))]
  else
    match validate_input text with
    | Except.error e => Except.error e
    | Except.ok _ =>
        match pipeline text with
        | Except.error e => Except.error e
        | Except.ok (level, scores) => Except.ok (("CEFR-J_Level", level) :: scores)

/-- The six canonical CEFR levels accepted by `get_unused_words`. -/
def CANONICAL_LEVELS : List String := ["A1", "A2", "B1", "B2", "C1", "C2"]

/-- Modelled from the spec: the non-punctuation, non-space tokens of the
text that `unused_words` matches against. -/
def unusedWordTokens (annotate : String → List SpacyToken) (text : String) :
    List SpacyToken :=
  (annotate text).filter (fun t => !t.is_punct && !t.is_space)

/-- The set of forms counted as used in the text: the lowercased surface
form and the lowercased lemma of every non-punctuation, non-space token. -/
def usedForms (annotate : String → List SpacyToken) (text : String) : List String :=
  (unusedWordTokens annotate text).map (fun t => lowerStr t.text) ++
    (unusedWordTokens annotate text).map (fun t => lowerStr t.lemma_)

/-- Modelled from the spec: `PyCEFRizer.get_unused_words` is called from
`mcp_server.py` and exercised by the tests, but the method itself is
missing from `src/pycefrizer/pycefrizer.py`.  Following the spec text:
given a target CEFR level, return every Lexical Resource Store entry at
that level whose base form does not appear (by surface or lemma match)
among the non-punctuation, non-space tokens of the annotated text, as a
word to part-of-speech mapping; an argument outside the six canonical
labels fails with an invalid-argument condition.  The NLP pass is the
`annotate` argument. -/
def get_unused_words (store : List (String × WordEntry))
    (annotate : String → List SpacyToken) (level : String) (text : String) :
    Except String (List (String × String)) :=
  if level ∈ CANONICAL_LEVELS then
    Except.ok ((store.filter
      (fun p => decide (p.2.CEFR = level) &&
        !(decide (p.2.base_form ∈ usedForms annotate text)))).map
      (fun p => (p.1, p.2.pos)))
  else
    Except.error ("Invalid CEFR level: " ++ level ++
      ". Must be one of A1, A2, B1, B2, C1, C2")

/-- Token constructor for concrete examples: an ordinary word token (not
punctuation, not space, not stopword-filtered in the metrics used here). -/
def mkToken (text lemma_ pos_ : String) : SpacyToken :=
  ⟨text, lemma_, pos_, false, false, false⟩

/-- A concrete CEFR score map whose values are the eight scores 1..8. -/
def demoScores8 : List (String × ℚ) :=
  [("AvrDiff_CEFR", 1), ("BperA_CEFR", 2), ("CVV1_CEFR", 3), ("AvrFreqRank_CEFR", 4),
   ("ARI_CEFR", 5), ("VperSent_CEFR", 6), ("POStypes_CEFR", 7), ("LenNP_CEFR", 8)]

/-- A concrete frequency table for the AvrFreqRank examples. -/
def demoCoca : List (String × ℕ) :=
  [("a", 1), ("b", 2), ("c", 3), ("d", 4), ("e", 5)]

/-- Five plain tokens whose frequency ranks under `demoCoca` are 1..5. -/
def demoDoc5 : List SpacyToken :=
  [mkToken "a" "a" "X", mkToken "b" "b" "X", mkToken "c" "c" "X",
   mkToken "d" "d" "X", mkToken "e" "e" "X"]

/-- Three plain tokens whose frequency ranks under `demoCoca` are 1..3. -/
def demoDoc3 : List SpacyToken :=
  [mkToken "a" "a" "X", mkToken "b" "b" "X", mkToken "c" "c" "X"]

/-- A concrete lexical store used by the single-word and unused-words
examples; mirrors the store of the specification examples. -/
def demoStore : List (String × WordEntry) :=
  [("the", ⟨"the", "determiner", "A1"⟩),
   ("cat", ⟨"cat", "noun", "A1"⟩),
   ("on", ⟨"on", "preposition", "A1"⟩),
   ("mat", ⟨"mat", "noun", "A1"⟩),
   ("dog", ⟨"dog", "noun", "A1"⟩),
   ("house", ⟨"house", "noun", "A1"⟩),
   ("run", ⟨"run", "verb", "A1"⟩),
   ("sat", ⟨"sit", "verb", "A2"⟩),
   ("paradigm", ⟨"paradigm", "noun", "C1"⟩)]

/-- A concrete NLP pass returning the tagging of
"The cat sat on the mat." for whatever text it is given. -/
def demoAnnotate : String → List SpacyToken := fun _ =>
  [mkToken "The" "the" "DET", mkToken "cat" "cat" "NOUN", mkToken "sat" "sit" "VERB",
   mkToken "on" "on" "ADP", mkToken "the" "the" "DET", mkToken "mat" "mat" "NOUN",
   ⟨".", ".", "PUNCT", true, false, false⟩]

/-- A pipeline stub for exercising the single-word branch of `analyze`,
which must never consult it. -/
def demoPipe : String → Except String (String × List (String × String)) :=
  fun _ => Except.error "pipeline must not run"

/-- Keys of an association list are pairwise distinct from `key`, so the
lookup fails. -/
theorem lookupAssoc_eq_none {α : Type} (key : String) (l : List (String × α))
    (h : ∀ p ∈ l, key ≠ p.1) : lookupAssoc key l = none := by
  induction l with
  | nil => rfl
  | cons p rest ih =>
      obtain ⟨k, v⟩ := p
      simp only [lookupAssoc]
      rw [if_neg (h (k, v) (List.mem_cons_self _ _))]
      exact ih fun q hq => h q (List.mem_cons_of_mem _ hq)

/-- A successful score map requires every single metric to have been
scored successfully: no partial results. -/
theorem calculate_cefr_scores_ok_forall (metrics : List (String × ℚ)) :
    ∀ scores, calculate_cefr_scores metrics = Except.ok scores →
      ∀ p ∈ metrics, ∃ s, apply_regression p.2 p.1 = Except.ok s := by
  induction metrics with
  | nil => intro scores _ p hp; cases hp
  | cons q rest ih =>
      intro scores h p hp
      obtain ⟨n, v⟩ := q
      simp only [calculate_cefr_scores] at h
      cases happ : apply_regression v n with
      | error e => rw [happ] at h; cases h
      | ok s =>
          rw [happ] at h
          cases hrest : calculate_cefr_scores rest with
          | error e => rw [hrest] at h; cases h
          | ok tail =>
              rcases List.mem_cons.mp hp with rfl | hp'
              · exact ⟨s, happ⟩
              · exact ih tail hrest p hp'

/-- The first failing metric aborts the scoring loop with exactly its
error. -/
theorem calculate_cefr_scores_first_error (pre : List (String × ℚ)) :
    ∀ (n : String) (v : ℚ) (post : List (String × ℚ)) (e : String),
      (∀ p ∈ pre, ∃ s, apply_regression p.2 p.1 = Except.ok s) →
      apply_regression v n = Except.error e →
      calculate_cefr_scores (pre ++ (n, v) :: post) = Except.error e := by
  induction pre with
  | nil =>
      intro n v post e _ herr
      simp only [List.nil_append, calculate_cefr_scores]
      rw [herr]
  | cons q pre ih =>
      intro n v post e hpre herr
      obtain ⟨m, w⟩ := q
      obtain ⟨s, hs⟩ := hpre (m, w) (List.mem_cons_self _ _)
      simp only [List.cons_append, calculate_cefr_scores]
      rw [hs]
      simp only [List.append_eq]
      rw [ih n v post e (fun p hp => hpre p (List.mem_cons_of_mem _ hp)) herr]

/-- C3: for each of the 8 recognized metric names and every raw value,
`apply_regression` returns `min(raw * slope + intercept, 7.0)` with that
metric's coefficient pair; the result is capped above at 7.0 and never
floored below, so any value not exceeding the cap (negative ones included)
is returned unchanged. -/
theorem apply_regression_spec (x slope intercept : ℚ) (name : String)
    (h : (name, (slope, intercept)) ∈ REGRESSION_COEFFICIENTS) :
    apply_regression x name = Except.ok (min (x * slope + intercept) 7) ∧
    (∀ y, apply_regression x name = Except.ok y → y ≤ 7) ∧
    (x * slope + intercept ≤ 7 →
      apply_regression x name = Except.ok (x * slope + intercept)) := by
  have hc : lookupAssoc name REGRESSION_COEFFICIENTS = some (slope, intercept) := by
    fin_cases h <;> rfl
  have h1 : apply_regression x name = Except.ok (min (x * slope + intercept) 7) := by
    unfold apply_regression
    rw [hc]
    rfl
  refine ⟨h1, ?_, ?_⟩
  · intro y hy
    rw [h1] at hy
    injection hy with h'
    rw [← h']
    exact min_le_right _ _
  · intro hle
    rw [h1, min_eq_left hle]

/-- Witness for C3: the CVV1 regression at raw value -10 produces a
negative score and returns it unfloored. -/
theorem apply_regression_spec_witness :
    apply_regression (-10) "CVV1" = Except.ok ((-10) * (11059 / 10000) + -1208 / 1000) :=
  (apply_regression_spec (-10) (11059 / 10000) (-1208 / 1000) "CVV1"
    (by simp [REGRESSION_COEFFICIENTS])).2.2 (by norm_num)

/-- C9: `apply_regression` fails with the unknown-metric error for every
name outside the 8 recognized keys, a successful score map certifies that
every metric scored successfully (no partial map), and the first failing
metric propagates its error out of `calculate_cefr_scores` unchanged. -/
theorem calculate_cefr_scores_propagation (metrics : List (String × ℚ))
    (x : ℚ) (name : String) :
    ((∀ p ∈ REGRESSION_COEFFICIENTS, name ≠ p.1) →
      apply_regression x name = Except.error ("Unknown metric: " ++ name)) ∧
    (∀ scores, calculate_cefr_scores metrics = Except.ok scores →
      ∀ p ∈ metrics, ∃ s, apply_regression p.2 p.1 = Except.ok s) ∧
    (∀ pre n v post e, metrics = pre ++ (n, v) :: post →
      (∀ p ∈ pre, ∃ s, apply_regression p.2 p.1 = Except.ok s) →
      apply_regression v n = Except.error e →
      calculate_cefr_scores metrics = Except.error e) := by
  refine ⟨?_, calculate_cefr_scores_ok_forall metrics, ?_⟩
  · intro h
    unfold apply_regression
    rw [lookupAssoc_eq_none name _ h]
  · intro pre n v post e hm hpre herr
    rw [hm]
    exact calculate_cefr_scores_first_error pre n v post e hpre herr

/-- Witness for C9: a single unrecognized metric name aborts the scoring
with the unknown-metric error and no score map. -/
theorem calculate_cefr_scores_propagation_witness :
    calculate_cefr_scores [("bogus", (1 : ℚ))] =
      Except.error ("Unknown metric: " ++ "bogus") := by
  have h := calculate_cefr_scores_propagation [("bogus", (1 : ℚ))] 1 "bogus"
  exact h.2.2 [] "bogus" 1 [] _ rfl (by simp) (h.1 (by decide))

/-- Lowering the score preserves every boundary test it already passed. -/
theorem ltBoundary_antitone (s t : ℚ) (hst : s ≤ t) (b : Option ℚ) :
    ltBoundary t b → ltBoundary s b := by
  cases b with
  | none => intro _; trivial
  | some c => intro h; exact lt_of_le_of_lt hst h

/-- The boundary scan returns the label of the first entry whose test
succeeds, provided some entry succeeds. -/
theorem lookupBoundary_first_match (s : ℚ) (bs : List (Option ℚ × String))
    (h : ∃ p ∈ bs, ltBoundary s p.1) :
    ∃ i, ∃ hi : i < bs.length,
      lookupBoundary s bs = (bs.get ⟨i, hi⟩).2 ∧
      ltBoundary s (bs.get ⟨i, hi⟩).1 ∧
      ∀ j (hj : j < i), ¬ ltBoundary s (bs.get ⟨j, Nat.lt_trans hj hi⟩).1 := by
  induction bs with
  | nil => simp at h
  | cons bl rest ih =>
      obtain ⟨b, label⟩ := bl
      by_cases hb : ltBoundary s b
      · refine ⟨0, Nat.succ_pos _, ?_, hb, ?_⟩
        · simp [lookupBoundary, hb]
        · intro j hj; exact absurd hj (Nat.not_lt_zero j)
      · have hr : ∃ p ∈ rest, ltBoundary s p.1 := by
          rcases h with ⟨p, hp, hlt⟩
          rcases List.mem_cons.mp hp with rfl | hp'
          · exact absurd hlt hb
          · exact ⟨p, hp', hlt⟩
        obtain ⟨i, hi, heq, hlt, hmin⟩ := ih hr
        refine ⟨i + 1, Nat.succ_lt_succ hi, ?_, hlt, ?_⟩
        · simpa [lookupBoundary, hb] using heq
        · intro j hj
          cases j with
          | zero => exact hb
          | succ j => exact hmin j (Nat.lt_of_succ_lt_succ hj)

/-- The label stored at position `i` of the boundary table has ordinal
rank `i`. -/
theorem cefrJRank_get (i : ℕ) (hi : i < CEFR_J_BOUNDARIES.length) :
    cefrJRank ((CEFR_J_BOUNDARIES.get ⟨i, hi⟩).2) = i := by
  have h12 : CEFR_J_BOUNDARIES.length = 12 := rfl
  have hi' : i < 12 := h12 ▸ hi
  interval_cases i <;> rfl

/-- The last boundary-table entry is unbounded, so some entry always
matches. -/
theorem cefr_j_boundaries_total (s : ℚ) :
    ∃ p ∈ CEFR_J_BOUNDARIES, ltBoundary s p.1 :=
  ⟨(none, "C2"), by simp [CEFR_J_BOUNDARIES], trivial⟩

/-- C2: `map_to_cefr_j` returns the label of the first boundary-table
entry whose threshold strictly exceeds the score (first match wins), is
total thanks to the unbounded final threshold, is monotone in the score
(with labels ordered by their table rank), and maps 0.3, 0.5, 1.5, 4.5 and
10.0 to "preA1", "A1.1", "A2.1", "C1" and "C2" respectively. -/
theorem map_to_cefr_j_spec (s t : ℚ) :
    (∃ i, ∃ hi : i < CEFR_J_BOUNDARIES.length,
      map_to_cefr_j s = (CEFR_J_BOUNDARIES.get ⟨i, hi⟩).2 ∧
      ltBoundary s (CEFR_J_BOUNDARIES.get ⟨i, hi⟩).1 ∧
      ∀ j (hj : j < i), ¬ ltBoundary s (CEFR_J_BOUNDARIES.get ⟨j, Nat.lt_trans hj hi⟩).1) ∧
    (s ≤ t → cefrJRank (map_to_cefr_j s) ≤ cefrJRank (map_to_cefr_j t)) ∧
    map_to_cefr_j (3 / 10) = "preA1" ∧
    map_to_cefr_j (5 / 10) = "A1.1" ∧
    map_to_cefr_j (15 / 10) = "A2.1" ∧
    map_to_cefr_j (45 / 10) = "C1" ∧
    map_to_cefr_j 10 = "C2" := by
  refine ⟨lookupBoundary_first_match s _ (cefr_j_boundaries_total s), ?_, ?_, ?_, ?_, ?_, ?_⟩
  · intro hst
    obtain ⟨i, hi, heqs, _, hmins⟩ :=
      lookupBoundary_first_match s _ (cefr_j_boundaries_total s)
    obtain ⟨k, hk, heqt, hltt, _⟩ :=
      lookupBoundary_first_match t _ (cefr_j_boundaries_total t)
    have hik : i ≤ k := by
      by_contra hik
      push_neg at hik
      exact hmins k hik (ltBoundary_antitone s t hst _ hltt)
    rw [show map_to_cefr_j s = lookupBoundary s CEFR_J_BOUNDARIES from rfl,
      show map_to_cefr_j t = lookupBoundary t CEFR_J_BOUNDARIES from rfl,
      heqs, heqt, cefrJRank_get i hi, cefrJRank_get k hk]
    exact hik
  · norm_num [map_to_cefr_j, lookupBoundary, CEFR_J_BOUNDARIES, ltBoundary]
  · norm_num [map_to_cefr_j, lookupBoundary, CEFR_J_BOUNDARIES, ltBoundary]
  · norm_num [map_to_cefr_j, lookupBoundary, CEFR_J_BOUNDARIES, ltBoundary]
  · norm_num [map_to_cefr_j, lookupBoundary, CEFR_J_BOUNDARIES, ltBoundary]
  · norm_num [map_to_cefr_j, lookupBoundary, CEFR_J_BOUNDARIES, ltBoundary]

/-- Witness for C2: the label rank is monotone between the concrete scores
0 and 1. -/
theorem map_to_cefr_j_spec_witness :
    cefrJRank (map_to_cefr_j 0) ≤ cefrJRank (map_to_cefr_j 1) :=
  (map_to_cefr_j_spec 0 1).2.1 (by norm_num)

/-- C1: `calculate_final_level` returns 0 on an empty score map and the
plain mean with two or fewer scores; with three or more scores it drops
exactly one minimal and one maximal value (one each, even with duplicates)
and averages the rest; the result is invariant under permutation of the
map, and every ordering of the eight scores 1..8 yields 9/2 = 4.5. -/
theorem calculate_final_level_spec (m m' : List (String × ℚ)) :
    (calculate_final_level [] = 0) ∧
    (finalLevelScores m ≠ [] → (finalLevelScores m).length ≤ 2 →
      calculate_final_level m = (finalLevelScores m).sum / (finalLevelScores m).length) ∧
    (3 ≤ (finalLevelScores m).length →
      ∃ mn rest mx, (finalLevelScores m).Perm (mn :: rest ++ [mx]) ∧
        (∀ x ∈ finalLevelScores m, mn ≤ x ∧ x ≤ mx) ∧
        calculate_final_level m = rest.sum / rest.length) ∧
    (m.Perm m' → calculate_final_level m = calculate_final_level m') ∧
    ((finalLevelScores m).Perm [1, 2, 3, 4, 5, 6, 7, 8] →
      calculate_final_level m = 9 / 2) := by
  refine ⟨rfl, ?_, ?_, ?_, ?_⟩
  · intro hne hlen
    unfold calculate_final_level
    rw [if_pos hlen, if_neg (by simp [List.isEmpty_iff, hne])]
  · intro h3
    have hperm : ((finalLevelScores m).insertionSort (· ≤ ·)).Perm (finalLevelScores m) :=
      List.perm_insertionSort _ _
    have hsort : List.Sorted (· ≤ ·) ((finalLevelScores m).insertionSort (· ≤ ·)) :=
      List.sorted_insertionSort _ _
    have h3' : 3 ≤ ((finalLevelScores m).insertionSort (· ≤ ·)).length := by
      rw [hperm.length_eq]; exact h3
    have hsne : (finalLevelScores m).insertionSort (· ≤ ·) ≠ [] := by
      intro hnil; rw [hnil] at h3'; simp at h3'
    obtain ⟨a, tl, hcons⟩ := List.exists_cons_of_ne_nil hsne
    have htlne : tl ≠ [] := by
      intro h0; rw [hcons, h0] at h3'; simp at h3'
    have hdec : tl = tl.dropLast ++ [tl.getLast htlne] :=
      (List.dropLast_append_getLast htlne).symm
    have hseq : (finalLevelScores m).insertionSort (· ≤ ·) =
        a :: (tl.dropLast ++ [tl.getLast htlne]) := by
      rw [hcons]; exact congrArg (a :: ·) hdec
    have hsort' : List.Sorted (· ≤ ·) (a :: (tl.dropLast ++ [tl.getLast htlne])) := by
      rw [← hseq]; exact hsort
    refine ⟨a, tl.dropLast, tl.getLast htlne, ?_, ?_, ?_⟩
    · have hp : (finalLevelScores m).Perm ((finalLevelScores m).insertionSort (· ≤ ·)) :=
        hperm.symm
      rw [hseq] at hp
      exact hp
    · intro x hx
      have hxs : x ∈ (finalLevelScores m).insertionSort (· ≤ ·) := hperm.mem_iff.mpr hx
      rw [hseq] at hxs
      constructor
      · rcases List.mem_cons.mp hxs with rfl | hx'
        · exact le_refl _
        · exact List.rel_of_sorted_cons hsort' x hx'
      · rcases List.mem_cons.mp hxs with rfl | hx'
        · exact List.rel_of_sorted_cons hsort' _ (by simp)
        · have hsorttl : List.Sorted (· ≤ ·) (tl.dropLast ++ [tl.getLast htlne]) :=
            hsort'.of_cons
          rcases List.mem_append.mp hx' with hxm | hxb
          · exact (List.pairwise_append.mp hsorttl).2.2 x hxm _ (by simp)
          · simp at hxb; rw [hxb]
    · have hmid : finalLevelMiddle m = tl.dropLast := by
        unfold finalLevelMiddle
        rw [hcons]
        rfl
      unfold calculate_final_level
      rw [if_neg (by omega), hmid, if_neg ?hne]
      case hne =>
        have hdl : tl.dropLast.length = tl.length - 1 := List.length_dropLast tl
        have htl : tl.length + 1 = ((finalLevelScores m).insertionSort (· ≤ ·)).length := by
          rw [hcons]; simp
        simp only [List.isEmpty_iff]
        intro hmideq
        rw [hmideq] at hdl
        simp at hdl
        omega
  · intro hmm'
    have hp : (finalLevelScores m).Perm (finalLevelScores m') := hmm'.map _
    have hL := hp.length_eq
    unfold calculate_final_level
    by_cases hl : (finalLevelScores m).length ≤ 2
    · have hl' : (finalLevelScores m').length ≤ 2 := by omega
      rw [if_pos hl, if_pos hl']
      by_cases he : (finalLevelScores m).isEmpty
      · have he' : (finalLevelScores m').isEmpty = true := by
          rw [List.isEmpty_iff_length_eq_zero] at he ⊢
          omega
        rw [if_pos he, if_pos he']
      · have he' : ¬(finalLevelScores m').isEmpty = true := by
          rw [List.isEmpty_iff_length_eq_zero] at he ⊢
          omega
        rw [if_neg he, if_neg he', hp.sum_eq, hL]
    · have hl' : ¬(finalLevelScores m').length ≤ 2 := by omega
      rw [if_neg hl, if_neg hl']
      have hss : (finalLevelScores m).insertionSort (· ≤ ·) =
          (finalLevelScores m').insertionSort (· ≤ ·) :=
        List.eq_of_perm_of_sorted
          ((List.perm_insertionSort _ _).trans
            (hp.trans (List.perm_insertionSort _ _).symm))
          (List.sorted_insertionSort _ _) (List.sorted_insertionSort _ _)
      unfold finalLevelMiddle
      rw [hss]
  · intro hp8
    have hlen8 : (finalLevelScores m).length = 8 := by
      have := hp8.length_eq; simpa using this
    have hsrt : (finalLevelScores m).insertionSort (· ≤ ·) = [1, 2, 3, 4, 5, 6, 7, 8] :=
      List.eq_of_perm_of_sorted ((List.perm_insertionSort _ _).trans hp8)
        (List.sorted_insertionSort _ _) (by decide)
    have hmid : finalLevelMiddle m = [2, 3, 4, 5, 6, 7] := by
      unfold finalLevelMiddle
      rw [hsrt]
      rfl
    unfold calculate_final_level
    rw [if_neg (by omega), hmid]
    norm_num [List.sum_cons]

/-- Witness for C1: on eight concrete scores 1..8 the trimmed mean is
9/2. -/
theorem calculate_final_level_spec_witness :
    calculate_final_level demoScores8 = 9 / 2 :=
  (calculate_final_level_spec demoScores8 demoScores8).2.2.2.2 (by decide)

/-- C5: over the frequency ranks of the non-punctuation, non-space tokens,
`calculate_avrfreqrank` returns 0 with no ranks and the plain mean with 3
or fewer; with more than 3 it removes exactly the 3 highest rank values
and averages the rest; ranks [1,2,3,4,5] give 3/2 and [1,2,3] give 2. -/
theorem calculate_avrfreqrank_spec (coca : List (String × ℕ)) (doc : List SpacyToken) :
    (avrfreqrankRanks coca doc = [] → calculate_avrfreqrank coca doc = 0) ∧
    (avrfreqrankRanks coca doc ≠ [] → (avrfreqrankRanks coca doc).length ≤ 3 →
      calculate_avrfreqrank coca doc =
        ((avrfreqrankRanks coca doc).sum : ℚ) / (avrfreqrankRanks coca doc).length) ∧
    (3 < (avrfreqrankRanks coca doc).length →
      ∃ kept top3, (avrfreqrankRanks coca doc).Perm (kept ++ top3) ∧
        top3.length = 3 ∧ kept ≠ [] ∧
        (∀ x ∈ kept, ∀ y ∈ top3, x ≤ y) ∧
        calculate_avrfreqrank coca doc = (kept.sum : ℚ) / kept.length) ∧
    calculate_avrfreqrank demoCoca demoDoc5 = 3 / 2 ∧
    calculate_avrfreqrank demoCoca demoDoc3 = 2 := by
  have hE : EXCLUDE_INFREQUENT_COUNT = 3 := rfl
  refine ⟨?_, ?_, ?_, ?_, ?_⟩
  · intro h
    simp [calculate_avrfreqrank, h]
  · intro hne hlen
    unfold calculate_avrfreqrank
    rw [if_pos (by omega), if_neg (by simp [List.isEmpty_iff, hne])]
  · intro h3
    have hperm : ((avrfreqrankRanks coca doc).insertionSort (· ≤ ·)).Perm
        (avrfreqrankRanks coca doc) := List.perm_insertionSort _ _
    have hsort : List.Sorted (· ≤ ·) ((avrfreqrankRanks coca doc).insertionSort (· ≤ ·)) :=
      List.sorted_insertionSort _ _
    have hlen : ((avrfreqrankRanks coca doc).insertionSort (· ≤ ·)).length =
        (avrfreqrankRanks coca doc).length := hperm.length_eq
    refine ⟨avrfreqrankTrimmed coca doc,
      ((avrfreqrankRanks coca doc).insertionSort (· ≤ ·)).drop
        (((avrfreqrankRanks coca doc).insertionSort (· ≤ ·)).length - 3), ?_, ?_, ?_, ?_, ?_⟩
    · have htd : avrfreqrankTrimmed coca doc ++
          ((avrfreqrankRanks coca doc).insertionSort (· ≤ ·)).drop
            (((avrfreqrankRanks coca doc).insertionSort (· ≤ ·)).length - 3) =
          (avrfreqrankRanks coca doc).insertionSort (· ≤ ·) := by
        unfold avrfreqrankTrimmed
        rw [hE]
        exact List.take_append_drop _ _
      rw [htd]
      exact hperm.symm
    · rw [List.length_drop]
      omega
    · unfold avrfreqrankTrimmed
      rw [hE]
      intro h0
      have := congrArg List.length h0
      rw [List.length_take] at this
      simp at this
      omega
    · intro x hx y hy
      have hs := hsort
      rw [← List.take_append_drop
        (((avrfreqrankRanks coca doc).insertionSort (· ≤ ·)).length - 3)
        ((avrfreqrankRanks coca doc).insertionSort (· ≤ ·))] at hs
      have hx' : x ∈ ((avrfreqrankRanks coca doc).insertionSort (· ≤ ·)).take
          (((avrfreqrankRanks coca doc).insertionSort (· ≤ ·)).length - 3) := by
        have := hx
        unfold avrfreqrankTrimmed at this
        rw [hE] at this
        exact this
      exact (List.pairwise_append.mp hs).2.2 x hx' y hy
    · unfold calculate_avrfreqrank
      rw [if_neg (by omega), if_neg]
      intro h0
      rw [List.isEmpty_iff] at h0
      have := congrArg List.length h0
      unfold avrfreqrankTrimmed at this
      rw [hE, List.length_take] at this
      simp at this
      omega
  · have hr : avrfreqrankRanks demoCoca demoDoc5 = [1, 2, 3, 4, 5] := rfl
    have ht : avrfreqrankTrimmed demoCoca demoDoc5 = [1, 2] := rfl
    unfold calculate_avrfreqrank
    rw [hr, ht]
    norm_num [EXCLUDE_INFREQUENT_COUNT, List.sum_cons]
  · have hr : avrfreqrankRanks demoCoca demoDoc3 = [1, 2, 3] := rfl
    unfold calculate_avrfreqrank
    rw [hr]
    norm_num [EXCLUDE_INFREQUENT_COUNT, List.sum_cons]

/-- Witness for C5: three tokens with ranks 1..3 are averaged untrimmed. -/
theorem calculate_avrfreqrank_spec_witness :
    calculate_avrfreqrank demoCoca demoDoc3 =
      ((avrfreqrankRanks demoCoca demoDoc3).sum : ℚ) /
        (avrfreqrankRanks demoCoca demoDoc3).length :=
  (calculate_avrfreqrank_spec demoCoca demoDoc3).2.1 (by decide) (by decide)

/-- C6: `validate_input` rejects empty or whitespace-only text with the
TextLength error, accepts a word count of exactly 10 and exactly 10000
(returning the count), and rejects counts 9 and 10001 with a TextLength
error naming the violated bound and the observed count - both boundaries
are inclusive. -/
theorem validate_input_spec (text : String) :
    (pyStripStr text = "" →
      validate_input text = Except.error "Input text cannot be empty") ∧
    (pyStripStr text ≠ "" →
      ((pyWords text.toList).length = 10 → validate_input text = Except.ok 10) ∧
      ((pyWords text.toList).length = 10000 → validate_input text = Except.ok 10000) ∧
      ((pyWords text.toList).length = 9 → validate_input text =
        Except.error "Text is too short. Minimum 10 words required, but got 9 words.") ∧
      ((pyWords text.toList).length = 10001 → validate_input text =
        Except.error "Text is too long. Maximum 10000 words allowed, but got 10001 words.")) := by
  constructor
  · intro h
    unfold validate_input
    rw [if_pos (Or.inr h)]
  · intro hs
    have hcond : ¬(text = "" ∨ pyStripStr text = "") := by
      rintro (rfl | h)
      · exact hs rfl
      · exact hs h
    refine ⟨?_, ?_, ?_, ?_⟩ <;> intro hwc <;> unfold validate_input <;>
      rw [if_neg hcond, hwc] <;> rfl

/-- Witness for C6: a text of exactly 10 whitespace-separated words is
accepted and its count returned. -/
theorem validate_input_spec_witness :
    validate_input "a a a a a a a a a a" = Except.ok 10 :=
  ((validate_input_spec "a a a a a a a a a a").2 (by decide)).1 (by decide)

/-- C7: an ARI failure is absorbed locally by `calculate_ari`, which
returns 0, so `calculate_all_metrics` succeeds whatever the ARI outcome
was as long as the other seven extractors succeed; a failure of any of
those seven aborts the whole computation with a MetricCalculation error
naming the failing metric - ARI is the only metric with local recovery. -/
theorem calculate_all_metrics_spec (ad bp cv af ar vs pt ln : Except String ℚ) :
    (∀ e, ar = Except.error e → calculate_ari ar = 0) ∧
    (∀ v, ar = Except.ok v → calculate_ari ar = v) ∧
    (∀ va vb vc vf vv vp vl, ad = Except.ok va → bp = Except.ok vb → cv = Except.ok vc →
      af = Except.ok vf → vs = Except.ok vv → pt = Except.ok vp → ln = Except.ok vl →
      calculate_all_metrics ad bp cv af ar vs pt ln =
        Except.ok [("AvrDiff", va), ("BperA", vb), ("CVV1", vc), ("AvrFreqRank", vf),
          ("ARI", calculate_ari ar), ("VperSent", vv), ("POStypes", vp), ("LenNP", vl)]) ∧
    (∀ e, ad = Except.error e → calculate_all_metrics ad bp cv af ar vs pt ln =
      Except.error ("Failed to calculate AvrDiff: " ++ e)) ∧
    (∀ va e, ad = Except.ok va → bp = Except.error e →
      calculate_all_metrics ad bp cv af ar vs pt ln =
        Except.error ("Failed to calculate BperA: " ++ e)) ∧
    (∀ va vb e, ad = Except.ok va → bp = Except.ok vb → cv = Except.error e →
      calculate_all_metrics ad bp cv af ar vs pt ln =
        Except.error ("Failed to calculate CVV1: " ++ e)) ∧
    (∀ va vb vc e, ad = Except.ok va → bp = Except.ok vb → cv = Except.ok vc →
      af = Except.error e →
      calculate_all_metrics ad bp cv af ar vs pt ln =
        Except.error ("Failed to calculate AvrFreqRank: " ++ e)) ∧
    (∀ va vb vc vf e, ad = Except.ok va → bp = Except.ok vb → cv = Except.ok vc →
      af = Except.ok vf → vs = Except.error e →
      calculate_all_metrics ad bp cv af ar vs pt ln =
        Except.error ("Failed to calculate VperSent: " ++ e)) ∧
    (∀ va vb vc vf vv e, ad = Except.ok va → bp = Except.ok vb → cv = Except.ok vc →
      af = Except.ok vf → vs = Except.ok vv → pt = Except.error e →
      calculate_all_metrics ad bp cv af ar vs pt ln =
        Except.error ("Failed to calculate POStypes: " ++ e)) ∧
    (∀ va vb vc vf vv vp e, ad = Except.ok va → bp = Except.ok vb → cv = Except.ok vc →
      af = Except.ok vf → vs = Except.ok vv → pt = Except.ok vp → ln = Except.error e →
      calculate_all_metrics ad bp cv af ar vs pt ln =
        Except.error ("Failed to calculate LenNP: " ++ e)) := by
  refine ⟨?_, ?_, ?_, ?_, ?_, ?_, ?_, ?_, ?_, ?_⟩
  · intro e h; rw [h]; rfl
  · intro v h; rw [h]; rfl
  · intro va vb vc vf vv vp vl h1 h2 h3 h4 h5 h6 h7
    subst h1; subst h2; subst h3; subst h4; subst h5; subst h6; subst h7
    rfl
  · intro e h; subst h; rfl
  · intro va e h1 h2; subst h1; subst h2; rfl
  · intro va vb e h1 h2 h3; subst h1; subst h2; subst h3; rfl
  · intro va vb vc e h1 h2 h3 h4; subst h1; subst h2; subst h3; subst h4; rfl
  · intro va vb vc vf e h1 h2 h3 h4 h5
    subst h1; subst h2; subst h3; subst h4; subst h5; rfl
  · intro va vb vc vf vv e h1 h2 h3 h4 h5 h6
    subst h1; subst h2; subst h3; subst h4; subst h5; subst h6; rfl
  · intro va vb vc vf vv vp e h1 h2 h3 h4 h5 h6 h7
    subst h1; subst h2; subst h3; subst h4; subst h5; subst h6; subst h7; rfl

/-- Witness for C7: with every other extractor succeeding, a raised ARI
exception degrades to the value 0 and the analysis still succeeds. -/
theorem calculate_all_metrics_spec_witness :
    calculate_all_metrics (Except.ok 1) (Except.ok 1) (Except.ok 1) (Except.ok 1)
      (Except.error "boom") (Except.ok 1) (Except.ok 1) (Except.ok 1) =
    Except.ok [("AvrDiff", 1), ("BperA", 1), ("CVV1", 1), ("AvrFreqRank", 1), ("ARI", 0),
      ("VperSent", 1), ("POStypes", 1), ("LenNP", 1)] :=
  (calculate_all_metrics_spec (Except.ok 1) (Except.ok 1) (Except.ok 1) (Except.ok 1)
    (Except.error "boom") (Except.ok 1) (Except.ok 1)
    (Except.ok 1)).2.2.1 1 1 1 1 1 1 1 rfl rfl rfl rfl rfl rfl rfl

/-- `Char.ofNat` at a valid code point round-trips through `toNat`. -/
theorem char_toNat_ofNat_valid (m : ℕ) (h : m.isValidChar) : (Char.ofNat m).toNat = m := by
  unfold Char.ofNat
  rw [dif_pos h]
  rfl

/-- Lowercasing cannot turn a non-space character into a space. -/
theorem toLower_ne_space (c : Char) (h : c ≠ ' ') : Char.toLower c ≠ ' ' := by
  simp only [Char.toLower]
  by_cases hc : c.toNat ≥ 65 ∧ c.toNat ≤ 90
  · rw [if_pos hc]
    intro heq
    have hv : (c.toNat + 32).isValidChar := Or.inl (by omega)
    have htn := char_toNat_ofNat_valid _ hv
    rw [heq] at htn
    have h32 : (' ').toNat = 32 := rfl
    rw [h32] at htn
    omega
  · rw [if_neg hc]
    exact h

/-- A list without whitespace characters is untouched by `dropWhile`. -/
theorem dropWhile_isWS_eq_self {l : List Char} (h : ∀ c ∈ l, isWS c = false) :
    l.dropWhile isWS = l := by
  cases l with
  | nil => rfl
  | cons c cs => simp [List.dropWhile_cons, h c (List.mem_cons_self _ _)]

/-- Stripping is the identity on text without whitespace characters. -/
theorem pyStrip_eq_self {l : List Char} (h : ∀ c ∈ l, isWS c = false) :
    pyStrip l = l := by
  unfold pyStrip
  rw [dropWhile_isWS_eq_self h,
    dropWhile_isWS_eq_self (fun c hc => h c (List.mem_reverse.mp hc))]
  exact List.reverse_reverse l

/-- A string whose list of characters is empty is the empty string. -/
theorem string_of_toList_eq_nil {s : String} (h : s.toList = []) : s = "" :=
  String.ext h

/-- `pyStripStr` is the identity on a string without whitespace
characters. -/
theorem pyStripStr_eq_self {s : String} (h : ∀ c ∈ s.toList, isWS c = false) :
    pyStripStr s = s := by
  unfold pyStripStr
  rw [pyStrip_eq_self h]
  rfl

/-- C8: when the stripped input is non-empty and has no internal
whitespace, `analyze` bypasses validation and the whole metric pipeline
(the result does not depend on the pipeline at all) and returns exactly
the single-key record whose value is the store level of the lowercased
word, with the empty string when the word is absent. -/
theorem analyze_single_word_spec (store : List (String × WordEntry))
    (pipeline pipeline' : String → Except String (String × List (String × String)))
    (text : String) (h1 : pyStripStr text ≠ "")
    (h2 : ∀ c ∈ (pyStripStr text).toList, isWS c = false) :
    analyze store pipeline text =
      Except.ok [("CEFR_Level", get_word_cefr_level store (pyStripStr text))] ∧
    analyze store pipeline text = analyze store pipeline' text ∧
    get_word_cefr_level store (pyStripStr text) =
      (match get_word_level store (lowerStr (pyStripStr text)) with
       | some level => level
       | none => "") := by
  have hcs : containsSpace (pyStripStr text) = false := by
    apply decide_eq_false
    intro hmem
    exact absurd (h2 ' ' hmem) (by decide)
  have hbranch : analyze store pipeline text =
      Except.ok [("CEFR_Level", get_word_cefr_level store (pyStripStr text))] := by
    unfold analyze
    rw [if_pos ⟨hcs, h1⟩]
  have hbranch' : analyze store pipeline' text =
      Except.ok [("CEFR_Level", get_word_cefr_level store (pyStripStr text))] := by
    unfold analyze
    rw [if_pos ⟨hcs, h1⟩]
  refine ⟨hbranch, hbranch.trans hbranch'.symm, ?_⟩
  have hlcs : containsSpace (lowerStr (pyStripStr text)) = false := by
    apply decide_eq_false
    intro hmem
    have hml : (lowerStr (pyStripStr text)).toList =
        (pyStripStr text).toList.map Char.toLower := rfl
    rw [hml] at hmem
    obtain ⟨c, hc, hceq⟩ := List.mem_map.mp hmem
    have hcne : c ≠ ' ' := by
      intro hce
      rw [hce] at hc
      exact absurd (h2 ' ' hc) (by decide)
    exact toLower_ne_space c hcne hceq
  have hlne : lowerStr (pyStripStr text) ≠ "" := by
    intro h0
    apply h1
    apply string_of_toList_eq_nil
    have hml : (lowerStr (pyStripStr text)).toList =
        (pyStripStr text).toList.map Char.toLower := rfl
    have := congrArg String.toList h0
    rw [hml] at this
    exact List.map_eq_nil_iff.mp this
  unfold get_word_cefr_level
  rw [pyStripStr_eq_self h2, if_neg]
  rintro (hc | hc)
  · rw [hlcs] at hc
    cases hc
  · exact hlne hc

/-- Witness for C8: analyzing the single word "paradigm" with a store
entry at C1 returns exactly the single-key record with level C1, with a
pipeline stub that errors if consulted. -/
theorem analyze_single_word_spec_witness :
    analyze demoStore demoPipe "paradigm" = Except.ok [("CEFR_Level", "C1")] :=
  (analyze_single_word_spec demoStore demoPipe demoPipe "paradigm"
    (by decide) (by decide)).1

/-- C4: for each of the six canonical levels, `unused_words` returns
exactly the store entries at that level whose base form matches neither
the lowercased surface form nor the lowercased lemma of any
non-punctuation, non-space token, as a word to part-of-speech mapping;
any other level argument fails with the invalid-argument error.  On the
store and text of the specification example, the result is exactly
dog/house/run with their parts of speech. -/
theorem get_unused_words_spec (store : List (String × WordEntry))
    (annotate : String → List SpacyToken) (level text : String) :
    (level ∉ CANONICAL_LEVELS →
      get_unused_words store annotate level text =
        Except.error ("Invalid CEFR level: " ++ level ++
          ". Must be one of A1, A2, B1, B2, C1, C2")) ∧
    (level ∈ CANONICAL_LEVELS →
      ∃ res, get_unused_words store annotate level text = Except.ok res ∧
        ∀ w pos, (w, pos) ∈ res ↔
          ∃ entry : WordEntry, (w, entry) ∈ store ∧ entry.CEFR = level ∧
            entry.pos = pos ∧
            ∀ t ∈ unusedWordTokens annotate text,
              lowerStr t.text ≠ entry.base_form ∧ lowerStr t.lemma_ ≠ entry.base_form) ∧
    get_unused_words demoStore demoAnnotate "A1" "The cat sat on the mat." =
      Except.ok [("dog", "noun"), ("house", "noun"), ("run", "verb")] := by
  refine ⟨?_, ?_, ?_⟩
  · intro h
    unfold get_unused_words
    rw [if_neg h]
  · intro h
    unfold get_unused_words
    rw [if_pos h]
    refine ⟨_, rfl, ?_⟩
    intro w pos
    constructor
    · intro hmem
      obtain ⟨p, hp, hgp⟩ := List.mem_map.mp hmem
      obtain ⟨hps, hpf⟩ := List.mem_filter.mp hp
      obtain ⟨hw, hpos⟩ := Prod.mk.injEq .. ▸ hgp
      rw [Bool.and_eq_true] at hpf
      obtain ⟨hcefr, hnotused⟩ := hpf
      rw [Bool.not_eq_true'] at hnotused
      have hnmem : p.2.base_form ∉ usedForms annotate text :=
        of_decide_eq_false hnotused
      refine ⟨p.2, ?_, of_decide_eq_true hcefr, hpos, ?_⟩
      · rw [← hw]
        exact hps
      · intro t ht
        constructor
        · intro he
          apply hnmem
          rw [← he]
          exact List.mem_append_left _ (List.mem_map_of_mem _ ht)
        · intro he
          apply hnmem
          rw [← he]
          exact List.mem_append_right _ (List.mem_map_of_mem _ ht)
    · rintro ⟨entry, hstore, hcefr, hpos, hforall⟩
      apply List.mem_map.mpr
      refine ⟨(w, entry), List.mem_filter.mpr ⟨hstore, ?_⟩, by rw [← hpos]⟩
      rw [Bool.and_eq_true]
      refine ⟨decide_eq_true hcefr, ?_⟩
      rw [Bool.not_eq_true']
      apply decide_eq_false
      intro hused
      rcases List.mem_append.mp hused with hu | hu
      · obtain ⟨t, ht, hte⟩ := List.mem_map.mp hu
        exact (hforall t ht).1 hte
      · obtain ⟨t, ht, hte⟩ := List.mem_map.mp hu
        exact (hforall t ht).2 hte
  · rfl

/-- Witness for C4: a level outside the six canonical labels is rejected
with the invalid-argument error. -/
theorem get_unused_words_spec_witness :
    get_unused_words demoStore demoAnnotate "X1" "Some text here" =
      Except.error ("Invalid CEFR level: " ++ "X1" ++
        ". Must be one of A1, A2, B1, B2, C1, C2") :=
  (get_unused_words_spec demoStore demoAnnotate "X1" "Some text here").1 (by decide)

/-- Each produced score entry corresponds pairwise to its metric: the key
gains the `_CEFR` suffix and the value is the regression output rounded to
two decimal places. -/
theorem calculate_cefr_scores_forall2 (metrics : List (String × ℚ)) :
    ∀ scores, calculate_cefr_scores metrics = Except.ok scores →
      List.Forall₂ (fun p q => ∃ y, apply_regression p.2 p.1 = Except.ok y ∧
        q = (p.1 ++ "_CEFR", round2 y)) metrics scores := by
  induction metrics with
  | nil =>
      intro scores h
      simp only [calculate_cefr_scores] at h
      injection h with h'
      subst h'
      exact List.Forall₂.nil
  | cons q rest ih =>
      intro scores h
      obtain ⟨n, v⟩ := q
      simp only [calculate_cefr_scores] at h
      cases happ : apply_regression v n with
      | error e => rw [happ] at h; cases h
      | ok s =>
          rw [happ] at h
          cases hrest : calculate_cefr_scores rest with
          | error e => rw [hrest] at h; cases h
          | ok tail =>
              rw [hrest] at h
              injection h with h'
              subst h'
              exact List.Forall₂.cons ⟨s, happ, rfl⟩ (ih tail hrest)

/-- C10: inside `calculate_cefr_scores` every per-metric score is rounded
to two decimal places under the `_CEFR`-suffixed key, and `process_metrics`
computes the final score and CEFR-J label from those already-rounded
scores and formats exactly those same rounded values as the public score
strings. -/
theorem process_metrics_spec (metrics scores : List (String × ℚ)) (level : String)
    (fmtd : List (String × String))
    (h1 : calculate_cefr_scores metrics = Except.ok scores)
    (h2 : process_metrics metrics = Except.ok (level, fmtd)) :
    List.Forall₂ (fun p q => ∃ y, apply_regression p.2 p.1 = Except.ok y ∧
      q = (p.1 ++ "_CEFR", round2 y)) metrics scores ∧
    level = map_to_cefr_j (calculate_final_level scores) ∧
    fmtd = scores.map (fun p => (p.1, formatScore p.2)) := by
  have hpair : (map_to_cefr_j (calculate_final_level scores),
      scores.map (fun p => (p.1, formatScore p.2))) = (level, fmtd) := by
    unfold process_metrics at h2
    rw [h1] at h2
    injection h2
  exact ⟨calculate_cefr_scores_forall2 metrics scores h1,
    (congrArg Prod.fst hpair).symm, (congrArg Prod.snd hpair).symm⟩

/-- Witness for C10: for the single metric CVV1 with raw value 2 the score
1.0038 rounds to 1.00, the final label is computed from the rounded value
and the public string "1.0" shows that same rounded value. -/
theorem process_metrics_spec_witness :
    process_metrics [("CVV1", (2 : ℚ))] = Except.ok ("A1.2", [("CVV1_CEFR", "1.0")]) ∧
    "A1.2" = map_to_cefr_j (calculate_final_level [("CVV1_CEFR", (1 : ℚ))]) ∧
    [("CVV1_CEFR", "1.0")] =
      [("CVV1_CEFR", (1 : ℚ))].map (fun p => (p.1, formatScore p.2)) := by
  have hmin : min (2 * ((11059 : ℚ) / 10000) + -1208 / 1000) 7 = 5019 / 5000 := by
    norm_num
  have ha : apply_regression 2 "CVV1" = Except.ok (5019 / 5000) := by
    have hr : apply_regression 2 "CVV1" =
        Except.ok (min (2 * ((11059 : ℚ) / 10000) + -1208 / 1000) 7) := rfl
    rw [hr, hmin]
  have hfl : (⌊(5019 : ℚ) / 5000 * 100⌋ : ℤ) = 100 := by
    rw [Int.floor_eq_iff]
    norm_num
  have hround : round2 (5019 / 5000) = 1 := by
    unfold round2 roundHalfEven
    rw [hfl, if_pos (by norm_num)]
    norm_num
  have h1 : calculate_cefr_scores [("CVV1", (2 : ℚ))] =
      Except.ok [("CVV1_CEFR", (1 : ℚ))] := by
    simp only [calculate_cefr_scores]
    rw [ha]
    show Except.ok [("CVV1" ++ "_CEFR", round2 (5019 / 5000))] =
      Except.ok [("CVV1_CEFR", (1 : ℚ))]
    rw [hround]
    rfl
  have hfin : calculate_final_level [("CVV1_CEFR", (1 : ℚ))] = 1 := by
    unfold calculate_final_level finalLevelScores
    norm_num
  have hmap : map_to_cefr_j 1 = "A1.2" := by
    norm_num [map_to_cefr_j, lookupBoundary, CEFR_J_BOUNDARIES, ltBoundary]
  have hfmt : formatScore 1 = "1.0" := by
    have h100 : |(1 : ℚ)| * 100 = 100 := by norm_num
    have hf100 : (⌊(100 : ℚ)⌋ : ℤ) = 100 := by norm_num
    unfold formatScore
    rw [h100, hf100, if_neg (by norm_num : ¬(1 : ℚ) < 0)]
    rfl
  have h2 : process_metrics [("CVV1", (2 : ℚ))] =
      Except.ok ("A1.2", [("CVV1_CEFR", "1.0")]) := by
    unfold process_metrics
    rw [h1]
    show Except.ok (map_to_cefr_j (calculate_final_level [("CVV1_CEFR", (1 : ℚ))]),
      [("CVV1_CEFR", (1 : ℚ))].map (fun p => (p.1, formatScore p.2))) =
      Except.ok ("A1.2", [("CVV1_CEFR", "1.0")])
    rw [hfin, hmap]
    simp [hfmt]
  exact ⟨h2, (process_metrics_spec _ _ _ _ h1 h2).2.1,
    (process_metrics_spec _ _ _ _ h1 h2).2.2⟩
